import Mathlib

/-!
Verification of the Bot_PMO repository (conversational PMO status bot).

Shallow embedding of the core program logic:
- `src/lib/risk-detector.js` (`shouldAlert`),
- the queued multi-project conversation flow of `src/handlers/slack-events.js`
  (`handleAdvancesText` awaiting_advances branch, `handleBlockActions`,
  `advanceToNextProject`, the scheduled pulse handler, the cache-refresh handler),
- `src/handlers/reminder.js` (reminder sweep),
- `src/services/dynamo.js` (update log, conversation-state items with TTL),
- the Asana service retry helpers (`getProjectDetailWithRetry`,
  `getProjectsPageWithRetry`, `getAllActiveProjectsWithResponsable`).

JavaScript values that may be `null`/`undefined` are modelled with `Option`;
ISO-8601 timestamps are modelled as naturals (milliseconds since epoch: the
spec's ordering invariant makes lexicographic order on the sort key equal to
chronological order, so a numeric timestamp is an order-faithful model).
The DynamoDB updates table for one project is modelled as a newest-first list:
`saveUpdate` prepends (the new record carries the latest timestamp) and
`getLastUpdates` takes a prefix (descending query with a limit).
-/

namespace PulseBot

/-- The `currentUpdate` argument of `shouldAlert`: `{ status, hasBlockers }`. -/
structure CurrentUpdate where
  status : String
  hasBlockers : Bool
deriving DecidableEq, Repr

/-- One stored item of the `pmo-bot-updates` table (`saveUpdate` in
`src/services/dynamo.js`). `timestamp` is milliseconds since epoch. -/
structure UpdateRec where
  projectGid : String
  projectName : Option String
  pmSlackId : String
  status : String
  advances : String
  hasBlockers : Bool
  blockerDescription : Option String
  timestamp : Nat
deriving DecidableEq, Repr

/-- Result record of `shouldAlert`: `{ shouldAlert, reason }`. -/
structure AlertResult where
  shouldAlert : Bool
  reason : Option String
deriving DecidableEq, Repr

/-- Condition B's inner test in `shouldAlert`: `previousUpdates[0]` exists and
has status at_risk (the JS reads `previousUpdates[0]` after a length check). -/
def headAtRisk (previousUpdates : List UpdateRec) : Bool :=
  match previousUpdates.head? with
  | some lastUpdate => lastUpdate.status = "at_risk"
  | none => false

/-- `shouldAlert` from `src/lib/risk-detector.js` (lines 20-57): condition A
(off_track always alerts), condition B (at_risk and the first element of
`previousUpdates` is at_risk), condition C (blockers on a not-on_track
project), otherwise no alert. -/
def shouldAlert (currentUpdate : CurrentUpdate) (previousUpdates : List UpdateRec) : AlertResult :=
  if currentUpdate.status = "off_track" then
    { shouldAlert := true, reason := some "Proyecto reportado como Off Track" }
  else if currentUpdate.status = "at_risk" ∧ headAtRisk previousUpdates = true then
    { shouldAlert := true, reason := some "Proyecto en riesgo por 2 reportes consecutivos" }
  else if currentUpdate.hasBlockers = true ∧ currentUpdate.status ≠ "on_track" then
    { shouldAlert := true, reason := some "Bloqueo reportado en proyecto con riesgo" }
  else
    { shouldAlert := false, reason := none }

/-- C1. `shouldAlert` returns true iff the current status is off_track, OR
(current is at_risk AND the first prior update exists and is at_risk), OR
(hasBlockers AND current status is not on_track); false in all other cases. -/
theorem shouldAlert_spec (cur : CurrentUpdate) (prev : List UpdateRec) :
    (shouldAlert cur prev).shouldAlert = true ↔
      (cur.status = "off_track" ∨
       (cur.status = "at_risk" ∧ ∃ u, prev.head? = some u ∧ u.status = "at_risk") ∨
       (cur.hasBlockers = true ∧ cur.status ≠ "on_track")) := by
  unfold shouldAlert headAtRisk
  cases prev with
  | nil =>
    simp only [List.head?_nil]
    split_ifs with h1 h2 h3 <;> simp_all
  | cons u rest =>
    simp only [List.head?_cons]
    split_ifs with h1 h2 h3 <;> simp_all

/-- One entry of `pendingProjects` as built by the scheduled pulse handler:
`{ gid, name, pmoId: p.pmoId || null, status: p.status || null }`. -/
structure PendingProject where
  gid : String
  name : String
  pmoId : Option String
  status : Option String
deriving DecidableEq, Repr

/-- The queued-variant ConversationState record. Fields that the JS code may
leave `undefined`/`null` are `Option`; a missing `pendingProjects` array
behaves exactly like `[]` everywhere the code reads it
(`Array.isArray(state.pendingProjects) ? state.pendingProjects : []`), so it
is modelled as a plain list. -/
structure ConvState where
  slackUserId : Option String
  step : Option String
  pendingProjects : List PendingProject
  currentIndex : Option Nat
  currentProjectGid : Option String
  currentProjectName : Option String
  currentProjectPmoId : Option String
  status : Option String
  hasBlockers : Option Bool
  blockerDescription : Option String
  lastPromptAt : Option Nat
  snoozeUntil : Option Nat
deriving DecidableEq, Repr

/-- The merge base used when `getConversationState` returns `null`: spreading
a null/absent state contributes no fields. -/
def emptyState : ConvState :=
  { slackUserId := none, step := none, pendingProjects := [], currentIndex := none,
    currentProjectGid := none, currentProjectName := none, currentProjectPmoId := none,
    status := none, hasBlockers := none, blockerDescription := none,
    lastPromptAt := none, snoozeUntil := none }

/-- `isInUpdateFlow` from `src/lib/conversation-state.js`: the step is one of
the update-flow steps. -/
def isInUpdateFlow (state : ConvState) : Bool :=
  match state.step with
  | some s =>
      ["awaiting_status", "awaiting_blockers", "awaiting_blocker_description",
       "awaiting_advances"].contains s
  | none => false

/-- `saveUpdate` (`src/services/dynamo.js`): a put keyed by
`UPDATE#timestamp`; the new record carries the latest timestamp, so in the
newest-first view of the table it becomes the head. -/
def saveUpdate (store : List UpdateRec) (rec : UpdateRec) : List UpdateRec :=
  rec :: store

/-- `getLastUpdates` (`src/services/dynamo.js`): descending query with a
limit, i.e. the first `limit` records of the newest-first view. -/
def getLastUpdates (store : List UpdateRec) (limit : Nat) : List UpdateRec :=
  store.take limit

/-- The `awaiting_advances` branch of `handleAdvancesText`
(`src/handlers/slack-events.js`, queued variant, lines 655-691): save the
update, then query the last 2 updates of the project, call `shouldAlert` on
them, and send an escalation iff it alerts. Returns the new update store and
whether `sendAlertToPMO` was called. -/
def handleAdvancesClose (now : Nat) (userId : String) (text : String)
    (state : ConvState) (store : List UpdateRec) : List UpdateRec × Bool :=
  let newRec : UpdateRec :=
    { projectGid := state.currentProjectGid.getD "",
      projectName := state.currentProjectName,
      pmSlackId := userId,
      status := state.status.getD "",
      advances := text,
      hasBlockers := state.hasBlockers.getD false,
      blockerDescription := state.blockerDescription,
      timestamp := now }
  let store1 := saveUpdate store newRec
  let previousUpdates := getLastUpdates store1 2
  let riskAnalysis := shouldAlert
    { status := state.status.getD "", hasBlockers := state.hasBlockers.getD false }
    previousUpdates
  (store1, riskAnalysis.shouldAlert)

/-- `advanceToNextProject` (`src/handlers/slack-events.js` lines 983-1009 and
`src/handlers/reminder.js` lines 76-102, identical code): `none` models
`return false` (queue exhausted, caller clears the state); `some` carries the
state written by `setConversationState` before `sendUpdateRequest`. -/
def advanceToNextProject (now : Nat) (state : ConvState) : Option ConvState :=
  let pending := state.pendingProjects
  let currentIndex := state.currentIndex.getD 0
  let nextIndex := currentIndex + 1
  if h : nextIndex < pending.length then
    let next := pending.get ⟨nextIndex, h⟩
    some { state with
      step := some "awaiting_status",
      currentIndex := some nextIndex,
      currentProjectGid := some next.gid,
      currentProjectName := some next.name,
      currentProjectPmoId := next.pmoId,
      status := none,
      hasBlockers := none,
      blockerDescription := none,
      lastPromptAt := some now,
      snoozeUntil := none }
  else
    none

/-- Iterated `advanceToNextProject`: `advanceIter now n s` is the state after
`n` successful advances (and `none` as soon as one returns false). -/
def advanceIter (now : Nat) : Nat → ConvState → Option ConvState
  | 0, s => some s
  | n + 1, s => (advanceIter now n s).bind (advanceToNextProject now)

/-- A queued-flow state sitting at `awaiting_advances` for its sole project,
with an at-risk answer and no blockers, no prior history: the failing input
for the escalation wiring. -/
def atRiskCloseState : ConvState :=
  { emptyState with
    slackUserId := some "U1",
    step := some "awaiting_advances",
    pendingProjects := [{ gid := "g1", name := "P1", pmoId := some "PMO-7", status := none }],
    currentIndex := some 0,
    currentProjectGid := some "g1",
    currentProjectName := some "P1",
    currentProjectPmoId := some "PMO-7",
    status := some "at_risk",
    hasBlockers := some false }

/-- C2. The code escalates on a single isolated at-risk update: the handler
calls `getLastUpdates` only after `saveUpdate`, so `previousUpdates[0]` is the
update just written, not a prior one. With an empty history the close step
already alerts (first conjunct); on the next cycle for the same project it
alerts again (second conjunct), so two consecutive at-risk updates produce two
escalation calls, not one. The third conjunct shows the evaluator itself,
applied to the true prior-update list (empty), would not alert — the
divergence is in the handler's wiring. -/
theorem advancesClose_isolated_at_risk_alerts :
    (handleAdvancesClose 1000 "U1" "sin avances" atRiskCloseState []).2 = true ∧
    (handleAdvancesClose 2000 "U1" "sin avances" atRiskCloseState
      (handleAdvancesClose 1000 "U1" "sin avances" atRiskCloseState []).1).2 = true ∧
    (shouldAlert { status := "at_risk", hasBlockers := false } []).shouldAlert = false := by
  decide

/-- Helper for C3: a successful advance from index `i` (when `i + 1` is still
inside the queue) moves to index `i + 1`, keeps the queue, and re-enters
`awaiting_status`. -/
theorem advance_success (now : Nat) (s : ConvState) (i : Nat)
    (hidx : s.currentIndex = some i) (hlt : i + 1 < s.pendingProjects.length) :
    ∃ s', advanceToNextProject now s = some s' ∧ s'.currentIndex = some (i + 1) ∧
      s'.pendingProjects = s.pendingProjects ∧ s'.step = some "awaiting_status" := by
  unfold advanceToNextProject
  simp only [hidx, Option.getD_some]
  rw [dif_pos hlt]
  exact ⟨_, rfl, rfl, rfl, rfl⟩

/-- Helper for C3: when `i + 1` falls outside the queue the advance returns
false (`none`). -/
theorem advance_fail (now : Nat) (s : ConvState) (i : Nat)
    (hidx : s.currentIndex = some i) (hge : ¬(i + 1 < s.pendingProjects.length)) :
    advanceToNextProject now s = none := by
  unfold advanceToNextProject
  simp only [hidx, Option.getD_some]
  rw [dif_neg hge]

/-- Helper for C3: iterating the advance from index 0 reaches index `i` with
the queue intact, for every `i` below the queue length. -/
theorem advanceIter_state (now : Nat) (s0 : ConvState) (hidx : s0.currentIndex = some 0) :
    ∀ i, i < s0.pendingProjects.length →
      ∃ s, advanceIter now i s0 = some s ∧ s.currentIndex = some i ∧
        s.pendingProjects = s0.pendingProjects ∧
        (1 ≤ i → s.step = some "awaiting_status") := by
  intro i
  induction i with
  | zero =>
    intro _
    exact ⟨s0, rfl, hidx, rfl, fun h => absurd h (by omega)⟩
  | succ n ih =>
    intro hlt
    obtain ⟨s, hs, hsi, hsp, _⟩ := ih (Nat.lt_of_succ_lt hlt)
    obtain ⟨s', hs', hsi', hsp', hstep'⟩ :=
      advance_success now s n hsi (by rw [hsp]; exact hlt)
    refine ⟨s', ?_, hsi', by rw [hsp', hsp], fun _ => hstep'⟩
    simp [advanceIter, hs, hs']

/-- C3. On a queue of length `K` starting from index 0, the `i`-th advance
call succeeds and lands on index `i` (still in `awaiting_status`, the state is
not cleared) for `i = 1 .. K-1`, and exactly the `K`-th call returns false
(upon which the caller clears the state): never earlier, never later. -/
theorem advanceToNextProject_exhausts_queue (now : Nat) (s0 : ConvState) (K : Nat)
    (hK : 1 ≤ K) (hlen : s0.pendingProjects.length = K)
    (hidx : s0.currentIndex = some 0) :
    (∀ i, 1 ≤ i → i < K →
      ∃ s, advanceIter now i s0 = some s ∧ s.currentIndex = some i ∧
        s.step = some "awaiting_status") ∧
    advanceIter now K s0 = none := by
  constructor
  · intro i hi1 hiK
    obtain ⟨s, hs, hsi, _, hstep⟩ := advanceIter_state now s0 hidx i (by omega)
    exact ⟨s, hs, hsi, hstep hi1⟩
  · obtain ⟨m, hm⟩ : ∃ m, K = m + 1 := ⟨K - 1, by omega⟩
    subst hm
    obtain ⟨s, hs, hsi, hsp, _⟩ := advanceIter_state now s0 hidx m (by omega)
    have hfail : advanceToNextProject now s = none :=
      advance_fail now s m hsi (by rw [hsp]; omega)
    simp [advanceIter, hs, hfail]

/-- C3 witness: a concrete two-project queue — the first advance succeeds to
index 1, the second (K-th) returns false. -/
theorem advanceToNextProject_exhausts_queue_witness :
    (∀ i, 1 ≤ i → i < 2 →
      ∃ s, advanceIter 9 i
          { emptyState with
            step := some "awaiting_status",
            pendingProjects :=
              [{ gid := "a", name := "A", pmoId := none, status := none },
               { gid := "b", name := "B", pmoId := none, status := none }],
            currentIndex := some 0 } = some s ∧
        s.currentIndex = some i ∧ s.step = some "awaiting_status") ∧
    advanceIter 9 2
      { emptyState with
        step := some "awaiting_status",
        pendingProjects :=
          [{ gid := "a", name := "A", pmoId := none, status := none },
           { gid := "b", name := "B", pmoId := none, status := none }],
        currentIndex := some 0 } = none :=
  advanceToNextProject_exhausts_queue 9 _ 2 (by decide) (by decide) (by decide)

/-- The `status` branch of `handleBlockActions` (queued variant,
`src/handlers/slack-events.js` lines 1028-1051): the project name and PMO id
are resolved from the active state, overridden by a match of the clicked
`projectGid` against the pending queue, and the payload gid itself is always
written to `currentProjectGid`; the write merges over the existing state
(spread in `conversation-state.js` `setConversationState`), so
`pendingProjects` and `currentIndex` are preserved. -/
def statusClick (now : Nat) (currentState : Option ConvState)
    (projectGid : String) (value : String) : ConvState :=
  let base := currentState.getD emptyState
  let resolved : Option String × Option String :=
    match currentState with
    | some st =>
      if st.pendingProjects.length > 0 then
        match st.pendingProjects.find? (fun q => q.gid == projectGid) with
        | some m =>
          (some m.name,
           match m.pmoId with
           | some x => some x
           | none => st.currentProjectPmoId)
        | none => (st.currentProjectName, st.currentProjectPmoId)
      else (st.currentProjectName, st.currentProjectPmoId)
    | none => (none, none)
  { base with
    step := some "awaiting_blockers",
    currentProjectGid := some projectGid,
    currentProjectName := resolved.1,
    currentProjectPmoId := resolved.2,
    status := some value,
    lastPromptAt := some now }

/-- The `blockers` branch of `handleBlockActions` (queued variant): records
the yes/no answer and moves to `awaiting_advances`, merging over the state. -/
def blockersClick (now : Nat) (currentState : Option ConvState) (value : String) : ConvState :=
  let st := currentState.getD emptyState
  { st with
    step := some "awaiting_advances",
    hasBlockers := some (value == "yes"),
    lastPromptAt := some now }

/-- The snooze branch of `handleAdvancesText`: sets `snoozeUntil` one hour
forward without touching the step or the queue. -/
def snoozeState (t : Nat) (st : ConvState) : ConvState :=
  { st with snoozeUntil := some t }

/-- The ConversationState written by the scheduled pulse handler (queued
variant, `src/handlers/slack-events.js` lines 1231-1246) when the filtered
queue `first :: rest` is non-empty, merging over whatever non-flow state the
user had. -/
def pulseInitialState (now : Nat) (base : ConvState) (userId : String)
    (first : PendingProject) (rest : List PendingProject) : ConvState :=
  { base with
    slackUserId := some userId,
    step := some "awaiting_status",
    pendingProjects := first :: rest,
    currentIndex := some 0,
    currentProjectGid := some first.gid,
    currentProjectName := some first.name,
    currentProjectPmoId := first.pmoId,
    lastPromptAt := some now }

/-- The C4 invariant, decidably: while the state is in an update-flow step,
`currentIndex` is a valid index into `pendingProjects` and the denormalized
active-project fields equal the entry at that index. -/
def checkActiveInvariant (s : ConvState) : Bool :=
  if isInUpdateFlow s then
    match s.currentIndex with
    | some i =>
      match s.pendingProjects[i]? with
      | some p =>
        s.currentProjectGid == some p.gid &&
        s.currentProjectName == some p.name &&
        s.currentProjectPmoId == p.pmoId
      | none => false
    | none => false
  else
    true

/-- Concrete two-project queue for the C4 counterexample. -/
def c4Start : ConvState :=
  pulseInitialState 0 emptyState "U1"
    { gid := "g0", name := "P0", pmoId := some "PMO-1", status := some "On Track" }
    [{ gid := "g1", name := "P1", pmoId := some "PMO-2", status := none }]

/-- C4 counterexample chain: complete the first project's cycle and advance. -/
def c4AfterAdvance : ConvState :=
  (advanceToNextProject 3
    (blockersClick 2 (some (statusClick 1 (some c4Start) "g0" "on_track")) "no")).getD
    emptyState

/-- C4 counterexample. After advancing to the second queued project the
invariant holds, but a status-button click carrying the first project's gid
(a stale button, resolved by matching the pending queue exactly as the claim
describes) produces an in-flow state whose `currentProjectGid` no longer
matches `pendingProjects[currentIndex]`: the resolution rewrites the
denormalized fields without moving `currentIndex`. -/
theorem statusClick_stale_breaks_invariant :
    (advanceToNextProject 3
      (blockersClick 2 (some (statusClick 1 (some c4Start) "g0" "on_track")) "no")).isSome
        = true ∧
    checkActiveInvariant c4AfterAdvance = true ∧
    isInUpdateFlow c4AfterAdvance = true ∧
    checkActiveInvariant (statusClick 4 (some c4AfterAdvance) "g0" "at_risk") = false := by
  decide

/-- C4 (amended). The invariant is established by the pulse queue creation
and preserved by blockers clicks, snoozes, successful advances, and by a
status click whose payload gid equals the active entry's gid (with
pairwise-distinct gids in the queue); a status click for a non-active gid can
break it (see the counterexample). -/
theorem conv_invariant_preservation (now : Nat) (g v : String) (st : ConvState)
    (p : PendingProject)
    (hinv : checkActiveInvariant st = true)
    (hflow : isInUpdateFlow st = true)
    (hnodup : (st.pendingProjects.map PendingProject.gid).Nodup)
    (hact : st.pendingProjects[st.currentIndex.getD 0]? = some p)
    (hg : g = p.gid) :
    checkActiveInvariant (statusClick now (some st) g v) = true ∧
    checkActiveInvariant (blockersClick now (some st) v) = true ∧
    (∀ t, checkActiveInvariant (snoozeState t st) = true) ∧
    (∀ m s', advanceToNextProject m st = some s' → checkActiveInvariant s' = true) ∧
    (∀ m base u first rest,
      checkActiveInvariant (pulseInitialState m base u first rest) = true) := by
  cases hcidx : st.currentIndex with
  | none => simp [checkActiveInvariant, hflow, hcidx] at hinv
  | some i =>
  rw [hcidx] at hact
  simp only [Option.getD_some] at hact
  have hinv' := hinv
  simp only [checkActiveInvariant, hflow, if_true, hcidx, hact, Bool.and_eq_true,
    beq_iff_eq] at hinv'
  obtain ⟨⟨hgid, hname⟩, hpmo⟩ := hinv'
  have hilt : i < st.pendingProjects.length := (List.getElem?_eq_some.mp hact).1
  have hpmem : p ∈ st.pendingProjects := by
    obtain ⟨h, rfl⟩ := List.getElem?_eq_some.mp hact
    exact List.getElem_mem h
  have hfind : st.pendingProjects.find? (fun q => q.gid == g) = some p := by
    cases hfq : st.pendingProjects.find? (fun q => q.gid == g) with
    | none =>
      exfalso
      exact (List.find?_eq_none.mp hfq p hpmem) (by simp [hg])
    | some q =>
      have hqg : q.gid = g := by simpa using List.find?_some hfq
      have hqmem : q ∈ st.pendingProjects := List.mem_of_find?_eq_some hfq
      have : q = p := List.inj_on_of_nodup_map hnodup hqmem hpmem (by rw [hqg, hg])
      rw [this]
  subst hg
  refine ⟨?_, ?_, ?_, ?_, ?_⟩
  · have hlen : st.pendingProjects.length > 0 := Nat.lt_of_le_of_lt (Nat.zero_le i) hilt
    cases hpm : p.pmoId with
    | none =>
      simp [statusClick, checkActiveInvariant, isInUpdateFlow, hlen, hfind, hcidx, hact,
        hpm, hpmo]
    | some x =>
      simp [statusClick, checkActiveInvariant, isInUpdateFlow, hlen, hfind, hcidx, hact,
        hpm]
  · simp [blockersClick, checkActiveInvariant, isInUpdateFlow, hcidx, hact, hgid, hname,
      hpmo]
  · intro t
    simp only [checkActiveInvariant, snoozeState] at hinv ⊢
    simpa [isInUpdateFlow] using hinv
  · intro m s' hadv
    simp only [advanceToNextProject] at hadv
    split at hadv
    next h =>
      simp only [Option.some.injEq] at hadv
      subst hadv
      have hg' : st.pendingProjects[st.currentIndex.getD 0 + 1]? =
          some (st.pendingProjects.get ⟨st.currentIndex.getD 0 + 1, h⟩) := by
        simp [List.getElem?_eq_getElem h]
      simp [checkActiveInvariant, isInUpdateFlow, hg']
    next => exact absurd hadv (by simp)
  · intro m base u first rest
    simp [checkActiveInvariant, isInUpdateFlow, pulseInitialState]

/-- C4 witness: a concrete in-flow state where the clicked gid is the active
entry's gid — all five preserved/established transitions verified through the
theorem. -/
theorem conv_invariant_preservation_witness :
    checkActiveInvariant (statusClick 7 (some c4Start) "g0" "ok") = true ∧
    checkActiveInvariant (blockersClick 7 (some c4Start) "yes") = true ∧
    (∀ t, checkActiveInvariant (snoozeState t c4Start) = true) ∧
    (∀ m s', advanceToNextProject m c4Start = some s' →
      checkActiveInvariant s' = true) ∧
    (∀ m base u first rest,
      checkActiveInvariant (pulseInitialState m base u first rest) = true) :=
  conv_invariant_preservation 7 "g0" "ok" c4Start
    { gid := "g0", name := "P0", pmoId := some "PMO-1", status := some "On Track" }
    (by decide) (by decide) (by decide) (by decide) (by decide)

/-- Model of JavaScript `String.prototype.toLowerCase` by per-character
lowering (status labels are plain ASCII words such as "Completed"). -/
def lowerString (s : String) : String :=
  String.mk (s.data.map Char.toLower)

/-- One row of `getAllActiveProjectsWithResponsable`'s result: gid, name, and
the three custom fields extracted from the detail response (`display_value ||
null` each). -/
structure CacheProject where
  gid : String
  name : String
  responsable : Option String
  status : Option String
  pmoId : Option String
deriving DecidableEq, Repr

/-- The global project cache, as the map the store realizes: business
key is the project gid. -/
def Cache : Type := String → Option CacheProject

/-- Modelled from the spec: `upsertProjectCache` is not under `src/` (only its
callers are); per §4.1 "upsert is a full overwrite of the record, not a
partial patch", it replaces the record stored under the project's gid. -/
def upsertProjectCache (c : Cache) (p : CacheProject) : Cache :=
  fun g => if g = p.gid then some p else c g

/-- Modelled from the spec: `deleteProjectCache` is not under `src/`; it
removes any record stored under the given gid (§3: "deleted when the refresh
observes the underlying project has reached a terminal status"). -/
def deleteProjectCache (c : Cache) (gid : String) : Cache :=
  fun g => if g = gid then none else c g

/-- `(project.status || '').toLowerCase()` from the cache-refresh handler. -/
def statusLower (p : CacheProject) : String :=
  lowerString (p.status.getD "")

/-- The `{ totalProjects, updated, deleted, skipped }` summary of the
cache-refresh handler. -/
structure RefreshSummary where
  totalProjects : Nat
  updated : Nat
  deleted : Nat
  skipped : Nat
deriving DecidableEq, Repr

/-- One iteration of the cache-refresh classification loop
(`src/handlers/slack-events.js` lines 1107-1122): completed status deletes
and counts `deleted`; missing both pmoId and responsable skips; otherwise
upserts and counts `updated`. -/
def cacheRefreshStep (acc : Cache × RefreshSummary) (project : CacheProject) :
    Cache × RefreshSummary :=
  if statusLower project = "completed" then
    (deleteProjectCache acc.1 project.gid, { acc.2 with deleted := acc.2.deleted + 1 })
  else if project.pmoId = none ∧ project.responsable = none then
    (acc.1, { acc.2 with skipped := acc.2.skipped + 1 })
  else
    (upsertProjectCache acc.1 project, { acc.2 with updated := acc.2.updated + 1 })

/-- The cache-refresh handler body: fold the classification loop over the
projects returned by the external source, starting from the current cache and
zeroed counters. -/
def cacheRefreshHandler (cache : Cache) (allProjects : List CacheProject) :
    Cache × RefreshSummary :=
  allProjects.foldl cacheRefreshStep
    (cache, { totalProjects := allProjects.length, updated := 0, deleted := 0, skipped := 0 })

/-- Bool form of the completed test, for counting. -/
def isCompletedStatus (p : CacheProject) : Bool :=
  statusLower p == "completed"

/-- Bool form of the missing-both test, for counting. -/
def isMissingBoth (p : CacheProject) : Bool :=
  p.pmoId.isNone && p.responsable.isNone

/-- The effect one loop iteration has on the cache at a fixed key `g`:
`some w` means the iteration writes value `w` there, `none` means it leaves
the key alone. -/
def cacheWriteAt (g : String) (acc : Option (Option CacheProject))
    (q : CacheProject) : Option (Option CacheProject) :=
  if q.gid = g then
    if statusLower q = "completed" then some none
    else if q.pmoId = none ∧ q.responsable = none then acc
    else some (some q)
  else acc

/-- The last write a refresh cycle performs at key `g` (if any). -/
def lastCacheWrite (ps : List CacheProject) (g : String) : Option (Option CacheProject) :=
  ps.foldl (cacheWriteAt g) none

theorem foldl_writeAt_eq (g : String) (ps : List CacheProject) :
    ∀ a, ps.foldl (cacheWriteAt g) a =
      match ps.foldl (cacheWriteAt g) none with
      | some w => some w
      | none => a := by
  induction ps with
  | nil => intro a; rfl
  | cons q rest ih =>
    intro a
    show rest.foldl (cacheWriteAt g) (cacheWriteAt g a q) =
      match rest.foldl (cacheWriteAt g) (cacheWriteAt g none q) with
      | some w => some w
      | none => a
    rw [ih (cacheWriteAt g a q), ih (cacheWriteAt g none q)]
    cases hR : rest.foldl (cacheWriteAt g) none with
    | some w => rfl
    | none =>
      show cacheWriteAt g a q =
        match cacheWriteAt g none q with
        | some w => some w
        | none => a
      unfold cacheWriteAt
      split_ifs <;> rfl

theorem cacheValue (g : String) :
    ∀ (ps : List CacheProject) (c : Cache) (s : RefreshSummary),
      (ps.foldl cacheRefreshStep (c, s)).1 g =
        match lastCacheWrite ps g with
        | some w => w
        | none => c g := by
  intro ps
  induction ps with
  | nil => intro c s; rfl
  | cons q rest ih =>
    intro c s
    show (rest.foldl cacheRefreshStep (cacheRefreshStep (c, s) q)).1 g = _
    have hsplit : cacheRefreshStep (c, s) q =
        ((cacheRefreshStep (c, s) q).1, (cacheRefreshStep (c, s) q).2) := rfl
    rw [hsplit, ih]
    have hlw : lastCacheWrite (q :: rest) g =
        match lastCacheWrite rest g with
        | some w => some w
        | none => cacheWriteAt g none q := by
      show rest.foldl (cacheWriteAt g) (cacheWriteAt g none q) = _
      rw [foldl_writeAt_eq g rest (cacheWriteAt g none q)]
      rfl
    rw [hlw]
    cases hR : lastCacheWrite rest g with
    | some w => rfl
    | none =>
      show (cacheRefreshStep (c, s) q).1 g =
        match cacheWriteAt g none q with
        | some w => w
        | none => c g
      unfold cacheRefreshStep cacheWriteAt deleteProjectCache upsertProjectCache
      by_cases hgid : q.gid = g
      · split_ifs <;> simp_all
      · have hgid2 : ¬(g = q.gid) := fun h => hgid h.symm
        split_ifs <;> simp_all

/-- Summary component of one loop step, phrased with the Bool classifiers. -/
theorem step_summary (c : Cache) (s : RefreshSummary) (q : CacheProject) :
    (cacheRefreshStep (c, s) q).2 =
      if isCompletedStatus q then { s with deleted := s.deleted + 1 }
      else if isMissingBoth q then { s with skipped := s.skipped + 1 }
      else { s with updated := s.updated + 1 } := by
  unfold cacheRefreshStep isCompletedStatus isMissingBoth
  split_ifs <;> simp_all [Option.isNone_iff_eq_none]

theorem refresh_total (ps : List CacheProject) :
    ∀ (c : Cache) (s : RefreshSummary),
      (ps.foldl cacheRefreshStep (c, s)).2.totalProjects = s.totalProjects := by
  induction ps with
  | nil => intro c s; rfl
  | cons q rest ih =>
    intro c s
    show (rest.foldl cacheRefreshStep (cacheRefreshStep (c, s) q)).2.totalProjects = _
    rw [show cacheRefreshStep (c, s) q =
      ((cacheRefreshStep (c, s) q).1, (cacheRefreshStep (c, s) q).2) from rfl, ih,
      step_summary]
    split_ifs <;> rfl

theorem refresh_deleted (ps : List CacheProject) :
    ∀ (c : Cache) (s : RefreshSummary),
      (ps.foldl cacheRefreshStep (c, s)).2.deleted =
        s.deleted + (ps.filter isCompletedStatus).length := by
  induction ps with
  | nil => intro c s; rfl
  | cons q rest ih =>
    intro c s
    show (rest.foldl cacheRefreshStep (cacheRefreshStep (c, s) q)).2.deleted = _
    rw [show cacheRefreshStep (c, s) q =
      ((cacheRefreshStep (c, s) q).1, (cacheRefreshStep (c, s) q).2) from rfl, ih,
      step_summary]
    by_cases h1 : isCompletedStatus q
    · simp [List.filter_cons, h1]
      omega
    · by_cases h2 : isMissingBoth q <;> simp [List.filter_cons, h1, h2]

theorem refresh_skipped (ps : List CacheProject) :
    ∀ (c : Cache) (s : RefreshSummary),
      (ps.foldl cacheRefreshStep (c, s)).2.skipped =
        s.skipped + (ps.filter (fun q => !isCompletedStatus q && isMissingBoth q)).length := by
  induction ps with
  | nil => intro c s; rfl
  | cons q rest ih =>
    intro c s
    show (rest.foldl cacheRefreshStep (cacheRefreshStep (c, s) q)).2.skipped = _
    rw [show cacheRefreshStep (c, s) q =
      ((cacheRefreshStep (c, s) q).1, (cacheRefreshStep (c, s) q).2) from rfl, ih,
      step_summary]
    by_cases h1 : isCompletedStatus q
    · simp [List.filter_cons, h1]
    · by_cases h2 : isMissingBoth q <;> simp [List.filter_cons, h1, h2]
      omega

theorem refresh_updated (ps : List CacheProject) :
    ∀ (c : Cache) (s : RefreshSummary),
      (ps.foldl cacheRefreshStep (c, s)).2.updated =
        s.updated + (ps.filter (fun q => !isCompletedStatus q && !isMissingBoth q)).length := by
  induction ps with
  | nil => intro c s; rfl
  | cons q rest ih =>
    intro c s
    show (rest.foldl cacheRefreshStep (cacheRefreshStep (c, s) q)).2.updated = _
    rw [show cacheRefreshStep (c, s) q =
      ((cacheRefreshStep (c, s) q).1, (cacheRefreshStep (c, s) q).2) from rfl, ih,
      step_summary]
    by_cases h1 : isCompletedStatus q
    · simp [List.filter_cons, h1]
    · by_cases h2 : isMissingBoth q <;> simp [List.filter_cons, h1, h2]
      omega

theorem lastWrite_none_of_absent (g : String) :
    ∀ ps : List CacheProject, (∀ q ∈ ps, q.gid ≠ g) → lastCacheWrite ps g = none := by
  intro ps
  induction ps with
  | nil => intro _; rfl
  | cons q rest ih =>
    intro h
    show rest.foldl (cacheWriteAt g) (cacheWriteAt g none q) = none
    have hq : cacheWriteAt g none q = none := by
      unfold cacheWriteAt
      rw [if_neg (h q (List.mem_cons_self q rest))]
    rw [hq]
    exact ih fun qq hqq => h qq (List.mem_cons_of_mem q hqq)

theorem lastWrite_completed (p : CacheProject) (hcomp : statusLower p = "completed") :
    ∀ ps : List CacheProject, p ∈ ps → (ps.map CacheProject.gid).Nodup →
      lastCacheWrite ps p.gid = some none := by
  intro ps
  induction ps with
  | nil => intro h; exact absurd h (List.not_mem_nil p)
  | cons q rest ih =>
    intro hmem hnodup
    have hlw : lastCacheWrite (q :: rest) p.gid =
        match lastCacheWrite rest p.gid with
        | some w => some w
        | none => cacheWriteAt p.gid none q := by
      show rest.foldl (cacheWriteAt p.gid) (cacheWriteAt p.gid none q) = _
      rw [foldl_writeAt_eq p.gid rest (cacheWriteAt p.gid none q)]
      rfl
    rcases List.mem_cons.mp hmem with heq | hmem2
    · subst heq
      have hn : (∀ x ∈ rest, ¬x.gid = p.gid) ∧ (rest.map CacheProject.gid).Nodup := by
        simpa using hnodup
      rw [hlw, lastWrite_none_of_absent p.gid rest (fun qq hqq => hn.1 qq hqq)]
      show cacheWriteAt p.gid none p = some none
      unfold cacheWriteAt
      rw [if_pos rfl, if_pos hcomp]
    · have hn : (∀ x ∈ rest, ¬x.gid = q.gid) ∧ (rest.map CacheProject.gid).Nodup := by
        simpa using hnodup
      have hrest : lastCacheWrite rest p.gid = some none := ih hmem2 hn.2
      rw [hlw, hrest]

/-- C5. Per-project classification of the refresh loop together with the
terminal-deletion property: `deleted`, `skipped` and `updated` count exactly
the completed, missing-both and remaining projects of the processed list, and
any processed project whose status lowercases to "completed" is absent from
the cache after the cycle, whatever the starting cache contained. -/
theorem cacheRefresh_classification (c0 : Cache) (ps : List CacheProject)
    (p : CacheProject) (hnodup : (ps.map CacheProject.gid).Nodup)
    (hp : p ∈ ps) (hcomp : statusLower p = "completed") :
    (cacheRefreshHandler c0 ps).1 p.gid = none ∧
    (cacheRefreshHandler c0 ps).2.deleted = (ps.filter isCompletedStatus).length ∧
    (cacheRefreshHandler c0 ps).2.skipped =
      (ps.filter (fun q => !isCompletedStatus q && isMissingBoth q)).length ∧
    (cacheRefreshHandler c0 ps).2.updated =
      (ps.filter (fun q => !isCompletedStatus q && !isMissingBoth q)).length ∧
    (cacheRefreshHandler c0 ps).2.totalProjects = ps.length := by
  refine ⟨?_, ?_, ?_, ?_, ?_⟩
  · unfold cacheRefreshHandler
    rw [cacheValue p.gid ps c0 _, lastWrite_completed p hcomp ps hp hnodup]
  · unfold cacheRefreshHandler; rw [refresh_deleted]; simp
  · unfold cacheRefreshHandler; rw [refresh_skipped]; simp
  · unfold cacheRefreshHandler; rw [refresh_updated]; simp
  · unfold cacheRefreshHandler; rw [refresh_total]

/-- The "Completed"-status project of the C5/C6 concrete source list. -/
def c5Completed : CacheProject :=
  { gid := "g1", name := "Done", responsable := some "R",
    status := some "Completed", pmoId := some "PMO-3" }

/-- Concrete source list for the C5 witness: one completed project, one
missing both owner and business id, one normal. -/
def c5Projects : List CacheProject :=
  [c5Completed,
   { gid := "g2", name := "Orphan", responsable := none,
     status := some "On Track", pmoId := none },
   { gid := "g3", name := "Live", responsable := some "R",
     status := some "On Track", pmoId := some "PMO-4" }]

/-- A starting cache in which a previous cycle had cached project g1. -/
def c5Cache0 : Cache :=
  fun g =>
    if g = "g1" then
      some { gid := "g1", name := "Done", responsable := some "R",
             status := some "On Track", pmoId := some "PMO-3" }
    else none

/-- C5 witness: the theorem evaluated on the concrete source list; in
particular the previously-cached "Completed" project is gone afterwards. -/
theorem cacheRefresh_classification_witness :
    (cacheRefreshHandler c5Cache0 c5Projects).1 c5Completed.gid = none ∧
    (cacheRefreshHandler c5Cache0 c5Projects).2.deleted =
      (c5Projects.filter isCompletedStatus).length ∧
    (cacheRefreshHandler c5Cache0 c5Projects).2.skipped =
      (c5Projects.filter (fun q => !isCompletedStatus q && isMissingBoth q)).length ∧
    (cacheRefreshHandler c5Cache0 c5Projects).2.updated =
      (c5Projects.filter (fun q => !isCompletedStatus q && !isMissingBoth q)).length ∧
    (cacheRefreshHandler c5Cache0 c5Projects).2.totalProjects = c5Projects.length :=
  cacheRefresh_classification c5Cache0 c5Projects c5Completed
    (by decide) (by decide) (by decide)

/-- C6 counterexample: one "Completed" project in the source. The first run
deletes (and counts) it; the second run, against the unchanged source, counts
`deleted = 1` again — `deleteProjectCache` is called and counted whether or
not a record is present — so the second-run summary is not
`{updated: N, deleted: 0, skipped: M}`. -/
theorem cacheRefresh_second_run_deleted_nonzero :
    (cacheRefreshHandler
      (cacheRefreshHandler (fun _ => none)
        [{ gid := "g9", name := "Done", responsable := some "R",
           status := some "Completed", pmoId := some "PMO-9" }]).1
      [{ gid := "g9", name := "Done", responsable := some "R",
         status := some "Completed", pmoId := some "PMO-9" }]).2.deleted = 1 ∧
    (cacheRefreshHandler (fun _ => none)
      [{ gid := "g9", name := "Done", responsable := some "R",
         status := some "Completed", pmoId := some "PMO-9" }]).2.deleted = 1 := by
  decide

/-- C6 (amended). Running the refresh twice against an unchanged source
yields a pointwise-identical cache snapshot, and the second run's summary is
identical to the first run's — including `deleted`, which counts every
completed-status source project on every run (deletions are counted without
checking presence), and is therefore not 0 in general. -/
theorem cacheRefresh_idempotent (c0 : Cache) (ps : List CacheProject) :
    (∀ g, (cacheRefreshHandler (cacheRefreshHandler c0 ps).1 ps).1 g =
      (cacheRefreshHandler c0 ps).1 g) ∧
    (cacheRefreshHandler (cacheRefreshHandler c0 ps).1 ps).2 =
      (cacheRefreshHandler c0 ps).2 := by
  have hsum : ∀ c : Cache,
      (cacheRefreshHandler c ps).2 =
        ⟨ps.length,
         (ps.filter (fun q => !isCompletedStatus q && !isMissingBoth q)).length,
         (ps.filter isCompletedStatus).length,
         (ps.filter (fun q => !isCompletedStatus q && isMissingBoth q)).length⟩ := by
    intro c
    unfold cacheRefreshHandler
    have h1 := refresh_total ps c ⟨ps.length, 0, 0, 0⟩
    have h2 := refresh_updated ps c ⟨ps.length, 0, 0, 0⟩
    have h3 := refresh_deleted ps c ⟨ps.length, 0, 0, 0⟩
    have h4 := refresh_skipped ps c ⟨ps.length, 0, 0, 0⟩
    calc (ps.foldl cacheRefreshStep (c, ⟨ps.length, 0, 0, 0⟩)).2
        = ⟨(ps.foldl cacheRefreshStep (c, ⟨ps.length, 0, 0, 0⟩)).2.totalProjects,
           (ps.foldl cacheRefreshStep (c, ⟨ps.length, 0, 0, 0⟩)).2.updated,
           (ps.foldl cacheRefreshStep (c, ⟨ps.length, 0, 0, 0⟩)).2.deleted,
           (ps.foldl cacheRefreshStep (c, ⟨ps.length, 0, 0, 0⟩)).2.skipped⟩ := rfl
      _ = _ := by rw [h1, h2, h3, h4]; simp
  refine ⟨?_, ?_⟩
  · intro g
    have h1 := cacheValue g ps c0 ⟨ps.length, 0, 0, 0⟩
    have h2 := cacheValue g ps (cacheRefreshHandler c0 ps).1 ⟨ps.length, 0, 0, 0⟩
    unfold cacheRefreshHandler
    unfold cacheRefreshHandler at h1 h2
    rw [h2, h1]
    cases hR : lastCacheWrite ps g with
    | some w => rfl
    | none => simp only [hR, h1]
  · rw [hsum, hsum]

/-- An error thrown by the Asana SDK, as inspected by the retry helpers:
`error?.status || error?.response?.status` and
`Number(error?.response?.headers['retry-after'] || 0)`. -/
structure ApiError where
  status : Option Nat
  retryAfter : Nat
deriving DecidableEq, Repr

/-- Outcome of one attempt of an external call. -/
inductive CallResult (α : Type) where
  | ok : α → CallResult α
  | err : ApiError → CallResult α
deriving DecidableEq, Repr

/-- `delayMs = retryAfter > 0 ? retryAfter * 1000 : 1000 * Math.pow(2, attempt)`
from both retry helpers. -/
def backoffDelay (e : ApiError) (attempt : Nat) : Nat :=
  if e.retryAfter > 0 then e.retryAfter * 1000 else 1000 * 2 ^ attempt

/-- The shared retry loop of `getProjectDetailWithRetry` and
`getProjectsPageWithRetry` (asana service, lines 468-506). `call attempt` is
the outcome of the attempt, `gas = retries - attempt` (the loop's guard
`attempt < retries` is exactly `gas > 0`, and each retry increments `attempt`
while decrementing `gas`). Returns the propagated result together with the
list of sleep delays performed, in order. -/
def retryCallAux {α : Type} (call : Nat → CallResult α) :
    Nat → Nat → Except ApiError α × List Nat
  | attempt, 0 =>
    match call attempt with
    | .ok r => (.ok r, [])
    | .err e => (.error e, [])
  | attempt, gas + 1 =>
    match call attempt with
    | .ok r => (.ok r, [])
    | .err e =>
      if e.status = some 429 then
        let next := retryCallAux call (attempt + 1) gas
        (next.1, backoffDelay e attempt :: next.2)
      else
        (.error e, [])

/-- The retry helpers as called by `getAllActiveProjectsWithResponsable`:
`retries = 3`, starting at attempt 0. -/
def retryCall {α : Type} (call : Nat → CallResult α) (retries : Nat) :
    Except ApiError α × List Nat :=
  retryCallAux call 0 retries

/-- A row of the paginated listing call (`opt_fields: 'name,archived'`). -/
structure ListedProject where
  gid : String
  name : String
  archived : Bool
deriving DecidableEq, Repr

/-- `getAllActiveProjectsWithResponsable` (asana service, lines 368-466),
collapsed to one listing call: a listing failure propagates and fails the
whole cycle; archived projects are discarded; each remaining project's detail
call (with retry) is caught per project, a failed project yielding `null` and
being filtered out of the batch results. Batching only bounds concurrency and
does not change the result list. -/
def getAllActiveProjectsWithResponsable
    (pageCall : Nat → CallResult (List ListedProject))
    (detailCall : String → Nat → CallResult CacheProject) :
    Except ApiError (List CacheProject) :=
  match (retryCall pageCall 3).1 with
  | .error e => .error e
  | .ok listed =>
    let active := listed.filter (fun p => !p.archived)
    .ok (active.filterMap (fun p =>
      match (retryCall (detailCall p.gid) 3).1 with
      | .ok d => some d
      | .error _ => none))

theorem retryCallAux_delays_le {α : Type} (call : Nat → CallResult α) :
    ∀ gas attempt, (retryCallAux call attempt gas).2.length ≤ gas := by
  intro gas
  induction gas with
  | zero =>
    intro attempt
    unfold retryCallAux
    cases call attempt <;> simp
  | succ n ih =>
    intro attempt
    unfold retryCallAux
    cases call attempt with
    | ok r => simp
    | err e =>
      by_cases h : e.status = some 429
      · simp only [h, if_pos rfl, List.length_cons]
        exact Nat.succ_le_succ (ih (attempt + 1))
      · simp [h]

theorem retryCallAux_all429 {α : Type} (call : Nat → CallResult α) (e : ApiError)
    (hcall : ∀ i, call i = .err e) (h429 : e.status = some 429) (hra : e.retryAfter = 0) :
    ∀ gas attempt, retryCallAux call attempt gas =
      (.error e, (List.range gas).map (fun i => 1000 * 2 ^ (attempt + i))) := by
  intro gas
  induction gas with
  | zero =>
    intro attempt
    unfold retryCallAux
    rw [hcall attempt]
    simp
  | succ n ih =>
    intro attempt
    have hmap : (List.range (n + 1)).map (fun i => 1000 * 2 ^ (attempt + i)) =
        1000 * 2 ^ attempt :: (List.range n).map (fun i => 1000 * 2 ^ (attempt + 1 + i)) := by
      rw [List.range_succ_eq_map]
      simp only [List.map_cons, List.map_map, Nat.add_zero]
      congr 1
      apply List.map_congr_left
      intro i _
      simp only [Function.comp_apply, Nat.succ_eq_add_one, pow_add, pow_succ]
      ring
    unfold retryCallAux
    rw [hcall attempt]
    simp only [h429, if_pos rfl, ih (attempt + 1)]
    unfold backoffDelay
    rw [hra, hmap]
    norm_num

/-- C7. The retry/backoff contract of the external-source calls:
(1) a permanently rate-limited call without a retry-after hint is retried
with delays 1000, 2000, 4000 ms (doubling per attempt) and then the 429 error
is propagated — 3 retries, 4 attempts in total;
(2) the number of backoff sleeps never exceeds the retry ceiling;
(3) a positive server retry-after hint replaces the first delay by
`retryAfter * 1000`;
(4) any non-429 error propagates immediately with no backoff sleep;
(5) if the listing call fails after its retries the whole cycle fails with
that error; and
(6) if the listing succeeds the cycle succeeds, its result containing exactly
the non-archived listed projects whose detail call (with retry) succeeded —
a failed detail call drops only that project. -/
theorem retry_backoff_spec {α : Type} (call : Nat → CallResult α) (e : ApiError)
    (pageCall : Nat → CallResult (List ListedProject))
    (detailCall : String → Nat → CallResult CacheProject) :
    ((∀ i, call i = .err e) → e.status = some 429 → e.retryAfter = 0 →
      retryCall call 3 = (.error e, [1000, 2000, 4000])) ∧
    (∀ retries, (retryCall call retries).2.length ≤ retries) ∧
    ((call 0 = .err e) → e.status = some 429 → 0 < e.retryAfter →
      (retryCall call 3).2.head? = some (e.retryAfter * 1000)) ∧
    ((call 0 = .err e) → e.status ≠ some 429 →
      retryCall call 3 = (.error e, [])) ∧
    (∀ e2, (retryCall pageCall 3).1 = .error e2 →
      getAllActiveProjectsWithResponsable pageCall detailCall = .error e2) ∧
    (∀ listed, (retryCall pageCall 3).1 = .ok listed →
      getAllActiveProjectsWithResponsable pageCall detailCall =
        .ok ((listed.filter (fun p => !p.archived)).filterMap (fun p =>
          match (retryCall (detailCall p.gid) 3).1 with
          | .ok d => some d
          | .error _ => none))) := by
  refine ⟨?_, ?_, ?_, ?_, ?_, ?_⟩
  · intro hcall h429 hra
    unfold retryCall
    rw [retryCallAux_all429 call e hcall h429 hra 3 0]
    norm_num [List.range_succ]
  · intro retries
    exact retryCallAux_delays_le call retries 0
  · intro hcall h429 hra
    unfold retryCall retryCallAux
    rw [hcall]
    simp only [h429, if_pos rfl]
    unfold backoffDelay
    rw [if_pos hra]
    rfl
  · intro hcall h429
    unfold retryCall retryCallAux
    rw [hcall]
    simp [h429]
  · intro e2 hpage
    unfold getAllActiveProjectsWithResponsable
    rw [hpage]
  · intro listed hpage
    unfold getAllActiveProjectsWithResponsable
    rw [hpage]

/-- C7 witness: a call that always answers 429 without retry-after hint, a
call that answers 429 with retry-after 7 s, a non-429 failure, a failing
listing, and a successful listing whose second project's detail call fails —
each hypothesis discharged at the concrete input via the theorem. -/
theorem retry_backoff_spec_witness :
    retryCall (fun _ => CallResult.err (α := Nat) ⟨some 429, 0⟩) 3 =
      (.error ⟨some 429, 0⟩, [1000, 2000, 4000]) ∧
    (retryCall (fun _ => CallResult.err (α := Nat) ⟨some 429, 7⟩) 3).2.head? =
      some (7 * 1000) ∧
    retryCall (fun _ => CallResult.err (α := Nat) ⟨some 500, 0⟩) 3 =
      (.error ⟨some 500, 0⟩, []) ∧
    getAllActiveProjectsWithResponsable (fun _ => CallResult.err ⟨some 500, 0⟩)
      (fun _ _ => CallResult.err ⟨some 403, 0⟩) = .error ⟨some 500, 0⟩ ∧
    getAllActiveProjectsWithResponsable
      (fun _ => CallResult.ok
        [⟨"g1", "A", false⟩, ⟨"g2", "B", false⟩, ⟨"g3", "C", true⟩])
      (fun g _ => if g = "g2" then CallResult.err ⟨some 403, 0⟩
        else CallResult.ok ⟨g, "proj", some "R", some "On Track", some "PMO-1"⟩) =
      .ok [⟨"g1", "proj", some "R", some "On Track", some "PMO-1"⟩] := by
  refine ⟨?_, ?_, ?_, ?_, ?_⟩
  · exact (retry_backoff_spec (fun _ => CallResult.err ⟨some 429, 0⟩) ⟨some 429, 0⟩
      (fun _ => CallResult.err ⟨some 500, 0⟩) (fun _ _ => CallResult.err ⟨some 403, 0⟩)).1
      (fun _ => rfl) rfl rfl
  · exact (retry_backoff_spec (fun _ => CallResult.err ⟨some 429, 7⟩) ⟨some 429, 7⟩
      (fun _ => CallResult.err ⟨some 500, 0⟩) (fun _ _ => CallResult.err ⟨some 403, 0⟩)).2.2.1
      rfl rfl (by decide)
  · exact (retry_backoff_spec (fun _ => CallResult.err ⟨some 500, 0⟩) ⟨some 500, 0⟩
      (fun _ => CallResult.err ⟨some 500, 0⟩) (fun _ _ => CallResult.err ⟨some 403, 0⟩)).2.2.2.1
      rfl (by decide)
  · exact (retry_backoff_spec (fun _ => CallResult.err (α := Nat) ⟨some 500, 0⟩) ⟨some 500, 0⟩
      (fun _ => CallResult.err ⟨some 500, 0⟩) (fun _ _ => CallResult.err ⟨some 403, 0⟩)).2.2.2.2.1
      ⟨some 500, 0⟩ rfl
  · have h := (retry_backoff_spec (fun _ => CallResult.err (α := Nat) ⟨some 500, 0⟩) ⟨some 500, 0⟩
      (fun _ => CallResult.ok
        [⟨"g1", "A", false⟩, ⟨"g2", "B", false⟩, ⟨"g3", "C", true⟩])
      (fun g _ => if g = "g2" then CallResult.err ⟨some 403, 0⟩
        else CallResult.ok ⟨g, "proj", some "R", some "On Track", some "PMO-1"⟩)).2.2.2.2.2
      [⟨"g1", "A", false⟩, ⟨"g2", "B", false⟩, ⟨"g3", "C", true⟩] rfl
    rw [h]
    rfl

/-- An outbound side effect of a handler: a Slack send or a store write. -/
inductive Effect where
  | updateRequest (userId : String) (projectName : String) (projectGid : String)
  | message (userId : String) (text : String)
  | stateWrite (userId : String) (state : ConvState)
  | stateClear (userId : String)
deriving DecidableEq, Repr

/-- The body of the reminder sweep loop for one active state
(`src/handlers/reminder.js` lines 16-71). `env gid` is the store's answer to
`getLastUpdates(gid, 1)` — `Except` because `dynamo.getLastUpdates` rethrows
store errors. Skipped states produce `ok []`; otherwise the sweep advances or
clears on an out-of-band update, or re-sends the step-appropriate prompt and
refreshes `lastPromptAt`. -/
def processReminderState (env : String → Except String (List UpdateRec)) (now : Nat)
    (state : ConvState) : Except String (List Effect) :=
  match state.slackUserId, state.currentProjectGid with
  | some userId, some gid =>
    if (match state.snoozeUntil with
        | some t => decide (now < t)
        | none => false) then .ok []
    else
      match state.lastPromptAt with
      | none => .ok []
      | some lastPromptAt =>
        if now < lastPromptAt + 3600000 then .ok []
        else
          match env gid with
          | .error e => .error e
          | .ok lastUpdates =>
            let lastUpdateAt := lastUpdates.head?.map (fun u => u.timestamp)
            if (match lastUpdateAt with
                | some t => decide (lastPromptAt < t)
                | none => false) then
              match advanceToNextProject now state with
              | some s2 =>
                .ok [.stateWrite userId s2,
                     .updateRequest userId (s2.currentProjectName.getD "")
                       (s2.currentProjectGid.getD "")]
              | none => .ok [.stateClear userId]
            else
              let reminders : List Effect :=
                if state.step = some "awaiting_status" then
                  [.updateRequest userId (state.currentProjectName.getD "Proyecto") gid]
                else if state.step = some "awaiting_blockers" then
                  [.message userId "Recuerda indicar si hay bloqueos"]
                else if state.step = some "awaiting_advances" then
                  [.message userId "Recuerda enviar los avances"]
                else []
              .ok (reminders ++ [.stateWrite userId { state with lastPromptAt := some now }])
  | _, _ => .ok []

/-- The reminder sweep handler: a plain `for` loop over the active states
with no per-item try/catch — the first thrown error aborts the remaining
iterations (the effects already sent stay sent). -/
def reminderSweep (env : String → Except String (List UpdateRec)) (now : Nat) :
    List ConvState → List Effect × Option String
  | [] => ([], none)
  | s :: rest =>
    match processReminderState env now s with
    | .error e => ([], some e)
    | .ok effs =>
      let r := reminderSweep env now rest
      (effs ++ r.1, r.2)

/-- Store environment for the C8 counterexample: querying project gBad throws. -/
def c8Env : String → Except String (List UpdateRec) :=
  fun g => if g = "gBad" then .error "dynamo query failed" else .ok []

/-- First active state of the C8 counterexample: due for a reminder, but its
`getLastUpdates` check throws. -/
def c8s1 : ConvState :=
  { emptyState with
    slackUserId := some "U1", step := some "awaiting_status",
    currentProjectGid := some "gBad", currentProjectName := some "P1",
    lastPromptAt := some 0 }

/-- Second active state of the C8 counterexample: due for a reminder and
perfectly processable. -/
def c8s2 : ConvState :=
  { emptyState with
    slackUserId := some "U2", step := some "awaiting_status",
    currentProjectGid := some "gOK", currentProjectName := some "P2",
    lastPromptAt := some 0 }

/-- C8 counterexample. With the failing state first, the sweep aborts with
the store error and produces no effect at all — in particular the second
state's due reminder (which the sweep does send when that state is processed
alone) is never sent. One state's failure prevents the remaining states from
being processed. -/
theorem reminderSweep_not_isolated :
    (reminderSweep c8Env 5400000 [c8s1, c8s2]).1 = [] ∧
    (reminderSweep c8Env 5400000 [c8s1, c8s2]).2 = some "dynamo query failed" ∧
    (reminderSweep c8Env 5400000 [c8s2]).1 ≠ [] := by
  decide

/-- C8 (amended). The sweep processes states strictly in order up to the
first failure: if every state of a prefix processes cleanly and the next
state's processing throws, the sweep returns exactly the prefix's effects
together with that error, leaving every later state unprocessed; and a
cleanly-processed head simply prepends its effects to the rest of the
sweep. -/
theorem reminderSweep_abort_semantics (env : String → Except String (List UpdateRec))
    (now : Nat) :
    (∀ pre (s : ConvState) rest e,
      (∀ q ∈ pre, ∃ effs, processReminderState env now q = .ok effs) →
      processReminderState env now s = .error e →
      ∃ effsPre, reminderSweep env now pre = (effsPre, none) ∧
        reminderSweep env now (pre ++ s :: rest) = (effsPre, some e)) ∧
    (∀ (s : ConvState) rest effs, processReminderState env now s = .ok effs →
      reminderSweep env now (s :: rest) =
        (effs ++ (reminderSweep env now rest).1, (reminderSweep env now rest).2)) := by
  constructor
  · intro pre
    induction pre with
    | nil =>
      intro s rest e _ herr
      exact ⟨[], rfl, by simp [reminderSweep, herr]⟩
    | cons q pre2 ih =>
      intro s rest e hpre herr
      obtain ⟨effsq, hokq⟩ := hpre q (List.mem_cons_self q pre2)
      obtain ⟨effsPre, h1, h2⟩ :=
        ih s rest e (fun q2 hq2 => hpre q2 (List.mem_cons_of_mem q hq2)) herr
      refine ⟨effsq ++ effsPre, ?_, ?_⟩
      · simp [reminderSweep, hokq, h1]
      · simp [reminderSweep, hokq, h2]
  · intro s rest effs hok
    simp [reminderSweep, hok]

/-- C8 witness: with the processable state first and the failing state
second, the sweep returns the first state's effects and the error — both
parts of the theorem instantiated at the concrete environment. -/
theorem reminderSweep_abort_semantics_witness :
    (∃ effsPre, reminderSweep c8Env 5400000 [c8s2] = (effsPre, none) ∧
      reminderSweep c8Env 5400000 ([c8s2] ++ c8s1 :: []) =
        (effsPre, some "dynamo query failed")) ∧
    reminderSweep c8Env 5400000 (c8s2 :: [c8s1]) =
      ([Effect.updateRequest "U2" "P2" "gOK",
        Effect.stateWrite "U2" { c8s2 with lastPromptAt := some 5400000 }] ++
          (reminderSweep c8Env 5400000 [c8s1]).1,
       (reminderSweep c8Env 5400000 [c8s1]).2) := by
  constructor
  · exact (reminderSweep_abort_semantics c8Env 5400000).1 [c8s2] c8s1 []
      "dynamo query failed"
      (fun q hq => by
        have hq2 : q = c8s2 := by simpa using hq
        subst hq2
        exact ⟨[.updateRequest "U2" "P2" "gOK",
                .stateWrite "U2" { c8s2 with lastPromptAt := some 5400000 }], by rfl⟩)
      (by rfl)
  · exact (reminderSweep_abort_semantics c8Env 5400000).2 c8s2 [c8s1]
      [.updateRequest "U2" "P2" "gOK",
       .stateWrite "U2" { c8s2 with lastPromptAt := some 5400000 }] (by rfl)

/-- The first maximal digit run of a string's characters — the JS
`String(pmoId).match(/\\d+/)` capture. -/
def firstDigitRun : List Char → List Char
  | [] => []
  | c :: cs => if c.isDigit then c :: cs.takeWhile (fun d => d.isDigit) else firstDigitRun cs

/-- Decimal value of a digit run (`Number(match[0])`). -/
def digitsVal (ds : List Char) : Nat :=
  ds.foldl (fun n c => n * 10 + (c.toNat - 48)) 0

/-- `parsePmoIdNumber` (`src/handlers/slack-events.js` lines 1301-1306):
`none` models the `Number.POSITIVE_INFINITY` returned for a missing pmoId or
one without digits, so that such projects sort last. -/
def parsePmoIdNumber (pmoId : Option String) : Option Nat :=
  match pmoId with
  | none => none
  | some s =>
    match firstDigitRun s.data with
    | [] => none
    | ds => some (digitsVal ds)

/-- The order induced by the sort comparator `aNum - bNum`, with `none`
playing infinity: every number precedes `none`. -/
def keyLe : Option Nat → Option Nat → Prop
  | some a, some b => a ≤ b
  | some _, none => True
  | none, some _ => False
  | none, none => True

instance : DecidableRel keyLe := fun a b => by
  cases a <;> cases b <;> simp [keyLe] <;> infer_instance

instance : IsTotal (Option Nat) keyLe :=
  ⟨by intro a b; cases a <;> cases b <;> simp [keyLe] <;> omega⟩

instance : IsTrans (Option Nat) keyLe :=
  ⟨by intro a b c hab hbc; cases a <;> cases b <;> cases c <;> simp_all [keyLe] <;> omega⟩

/-- The pulse handler's comparator on cached projects: ascending by parsed
PMO ordinal, unparseable ordinals last. -/
def pmoLe (a b : CacheProject) : Prop :=
  keyLe (parsePmoIdNumber a.pmoId) (parsePmoIdNumber b.pmoId)

instance : DecidableRel pmoLe := fun a b => by
  unfold pmoLe; infer_instance

instance : IsTotal CacheProject pmoLe :=
  ⟨fun a b => IsTotal.total (r := keyLe) _ _⟩

instance : IsTrans CacheProject pmoLe :=
  ⟨fun a b c => IsTrans.trans (r := keyLe) _ _ _⟩

/-- The pulse handler's filter: drop completed-status projects and projects
already reported today. -/
def pulseEligible (updatedToday : List String) (project : CacheProject) : Bool :=
  !(statusLower project == "completed") && !(updatedToday.contains project.gid)

/-- Filter then sort — the queue the pulse handler builds from the user's
cached projects. The JS `Array.prototype.sort` with the numeric comparator
realizes an ordering by `pmoLe`; the embedding uses insertion sort, which
satisfies the same specification (sorted by `pmoLe`, a permutation of the
filtered input). -/
def buildQueue (updatedToday : List String) (projects : List CacheProject) :
    List CacheProject :=
  List.insertionSort pmoLe (projects.filter (pulseEligible updatedToday))

/-- A user row as seen by the scheduled pulse (`getAllOnboardedUsers`). -/
structure PulseUser where
  slackUserId : String
  onboarded : Bool
  asanaName : Option String
  timezone : Option String
deriving DecidableEq, Repr

/-- The pending-queue entry built from a cached project. -/
def toPendingProject (p : CacheProject) : PendingProject :=
  { gid := p.gid, name := p.name, pmoId := p.pmoId, status := p.status }

/-- The per-user body of the scheduled pulse handler (queued variant,
`src/handlers/slack-events.js` lines 1185-1254). `localHour` is the user's
local hour (`none` models a timezone error, which the code treats as an
appropriate time); the handler skips users outside 8-10 local, without an
asanaName, or with an active in-flow state; otherwise it builds the queue
and, when non-empty, writes the initial ConversationState and sends the
first project's status prompt. -/
def processPulseUser (now : Nat) (localHour : Option Nat) (user : PulseUser)
    (existingState : Option ConvState) (updatedToday : List String)
    (projects : List CacheProject) : Option ConvState × List Effect :=
  let appropriate : Bool :=
    match localHour with
    | some h => decide (8 ≤ h) && decide (h ≤ 10)
    | none => true
  if !appropriate then (none, [])
  else
    match user.asanaName with
    | none => (none, [])
    | some _ =>
      if (existingState.map isInUpdateFlow).getD false then (none, [])
      else
        match buildQueue updatedToday projects with
        | [] => (none, [])
        | first :: rest =>
          let base := existingState.getD emptyState
          let newState : ConvState :=
            { base with
              slackUserId := some user.slackUserId,
              step := some "awaiting_status",
              pendingProjects := (first :: rest).map toPendingProject,
              currentIndex := some 0,
              currentProjectGid := some first.gid,
              currentProjectName := some first.name,
              currentProjectPmoId := first.pmoId,
              lastPromptAt := some now }
          (some newState,
           [.stateWrite user.slackUserId newState,
            .updateRequest user.slackUserId first.name first.gid])

/-- Onboarded user for the C9 counterexample. -/
def c9User : PulseUser :=
  { slackUserId := "U9", onboarded := true, asanaName := some "Ana Lopez",
    timezone := some "America/Santiago" }

/-- One eligible cached project for the C9 counterexample. -/
def c9Projects : List CacheProject :=
  [{ gid := "p1", name := "Proj1", responsable := some "Ana Lopez",
     status := some "On Track", pmoId := some "PMO-2" }]

/-- C9 counterexample. An onboarded user with no ConversationState and a
non-empty eligible queue gets no state and no prompt when the scheduled
outreach fires at 14:00 local time: the handler's 8-10 local-hour gate, which
the claim omits, suppresses the whole outreach for that user. -/
theorem pulse_outside_window_no_action :
    buildQueue [] c9Projects ≠ [] ∧
    processPulseUser 1000 (some 14) c9User none [] c9Projects = (none, []) := by
  decide

/-- C9 (amended). For an onboarded user with a source name, no active in-flow
ConversationState, and a local hour inside the 8-10 outreach window (or an
unresolvable timezone): the handler builds the queue by filtering out
projects reported today and completed-status projects and sorting ascending
by parsed PMO ordinal with unparseable ordinals last; an empty queue performs
no action, and a non-empty queue creates the `awaiting_status` state pointing
at the first queue entry and sends that project's status prompt. -/
theorem pulse_queue_spec (now h : Nat) (user : PulseUser) (nm : String)
    (existingState : Option ConvState) (updatedToday : List String)
    (projects : List CacheProject)
    (h8 : 8 ≤ h) (h10 : h ≤ 10)
    (hname : user.asanaName = some nm)
    (hbusy : (existingState.map isInUpdateFlow).getD false = false) :
    (buildQueue updatedToday projects = [] →
      processPulseUser now (some h) user existingState updatedToday projects =
        (none, [])) ∧
    (∀ first rest, buildQueue updatedToday projects = first :: rest →
      ∃ st, processPulseUser now (some h) user existingState updatedToday projects =
          (some st,
           [Effect.stateWrite user.slackUserId st,
            Effect.updateRequest user.slackUserId first.name first.gid]) ∧
        st.step = some "awaiting_status" ∧
        st.currentIndex = some 0 ∧
        st.currentProjectGid = some first.gid ∧
        st.currentProjectName = some first.name ∧
        st.currentProjectPmoId = first.pmoId ∧
        st.pendingProjects = (first :: rest).map toPendingProject) ∧
    (buildQueue updatedToday projects).Perm
      (projects.filter (pulseEligible updatedToday)) ∧
    List.Sorted pmoLe (buildQueue updatedToday projects) ∧
    (∀ p ∈ projects, statusLower p = "completed" →
      p ∉ buildQueue updatedToday projects) ∧
    (∀ p ∈ projects, p.gid ∈ updatedToday →
      p ∉ buildQueue updatedToday projects) := by
  have happ : ((match some h with
      | some hh => decide (8 ≤ hh) && decide (hh ≤ 10)
      | none => true) : Bool) = true := by
    simp [h8, h10]
  have hperm := List.perm_insertionSort pmoLe (projects.filter (pulseEligible updatedToday))
  refine ⟨?_, ?_, hperm, List.sorted_insertionSort pmoLe _, ?_, ?_⟩
  · intro hq
    unfold processPulseUser
    simp [happ, hname, hbusy, hq]
  · intro first rest hq
    refine ⟨{ (existingState.getD emptyState) with
        slackUserId := some user.slackUserId,
        step := some "awaiting_status",
        pendingProjects := (first :: rest).map toPendingProject,
        currentIndex := some 0,
        currentProjectGid := some first.gid,
        currentProjectName := some first.name,
        currentProjectPmoId := first.pmoId,
        lastPromptAt := some now }, ?_, rfl, rfl, rfl, rfl, rfl, rfl⟩
    unfold processPulseUser
    simp [happ, hname, hbusy, hq]
    exact ⟨h8, h10⟩
  · intro p _ hcomp hmem
    have hf : p ∈ projects.filter (pulseEligible updatedToday) := hperm.mem_iff.mp hmem
    have he := (List.mem_filter.mp hf).2
    simp [pulseEligible, hcomp] at he
  · intro p _ hgid hmem
    have hf : p ∈ projects.filter (pulseEligible updatedToday) := hperm.mem_iff.mp hmem
    have he := (List.mem_filter.mp hf).2
    simp [pulseEligible, hgid] at he

/-- C9 witness: two eligible projects (in reverse PMO order) plus one
completed and one already-reported project, at 9 o'clock local — the theorem
instantiated concretely. -/
theorem pulse_queue_spec_witness :
    (buildQueue ["pDone"]
        [{ gid := "p5", name := "Five", responsable := some "Ana",
           status := some "On Track", pmoId := some "PMO-5" },
         { gid := "p2", name := "Two", responsable := some "Ana",
           status := some "At Risk", pmoId := some "PMO-2" },
         { gid := "pC", name := "Fin", responsable := some "Ana",
           status := some "Completed", pmoId := some "PMO-1" },
         { gid := "pDone", name := "Rep", responsable := some "Ana",
           status := some "On Track", pmoId := some "PMO-3" }] = [] →
      processPulseUser 77 (some 9) c9User none ["pDone"]
        [{ gid := "p5", name := "Five", responsable := some "Ana",
           status := some "On Track", pmoId := some "PMO-5" },
         { gid := "p2", name := "Two", responsable := some "Ana",
           status := some "At Risk", pmoId := some "PMO-2" },
         { gid := "pC", name := "Fin", responsable := some "Ana",
           status := some "Completed", pmoId := some "PMO-1" },
         { gid := "pDone", name := "Rep", responsable := some "Ana",
           status := some "On Track", pmoId := some "PMO-3" }] = (none, [])) ∧
    (∀ first rest, buildQueue ["pDone"]
        [{ gid := "p5", name := "Five", responsable := some "Ana",
           status := some "On Track", pmoId := some "PMO-5" },
         { gid := "p2", name := "Two", responsable := some "Ana",
           status := some "At Risk", pmoId := some "PMO-2" },
         { gid := "pC", name := "Fin", responsable := some "Ana",
           status := some "Completed", pmoId := some "PMO-1" },
         { gid := "pDone", name := "Rep", responsable := some "Ana",
           status := some "On Track", pmoId := some "PMO-3" }] = first :: rest →
      ∃ st, processPulseUser 77 (some 9) c9User none ["pDone"]
          [{ gid := "p5", name := "Five", responsable := some "Ana",
             status := some "On Track", pmoId := some "PMO-5" },
           { gid := "p2", name := "Two", responsable := some "Ana",
             status := some "At Risk", pmoId := some "PMO-2" },
           { gid := "pC", name := "Fin", responsable := some "Ana",
             status := some "Completed", pmoId := some "PMO-1" },
           { gid := "pDone", name := "Rep", responsable := some "Ana",
             status := some "On Track", pmoId := some "PMO-3" }] =
          (some st,
           [Effect.stateWrite c9User.slackUserId st,
            Effect.updateRequest c9User.slackUserId first.name first.gid]) ∧
        st.step = some "awaiting_status" ∧
        st.currentIndex = some 0 ∧
        st.currentProjectGid = some first.gid ∧
        st.currentProjectName = some first.name ∧
        st.currentProjectPmoId = first.pmoId ∧
        st.pendingProjects = (first :: rest).map toPendingProject) ∧
    (buildQueue ["pDone"]
        [{ gid := "p5", name := "Five", responsable := some "Ana",
           status := some "On Track", pmoId := some "PMO-5" },
         { gid := "p2", name := "Two", responsable := some "Ana",
           status := some "At Risk", pmoId := some "PMO-2" },
         { gid := "pC", name := "Fin", responsable := some "Ana",
           status := some "Completed", pmoId := some "PMO-1" },
         { gid := "pDone", name := "Rep", responsable := some "Ana",
           status := some "On Track", pmoId := some "PMO-3" }]).Perm
      ([{ gid := "p5", name := "Five", responsable := some "Ana",
          status := some "On Track", pmoId := some "PMO-5" },
        { gid := "p2", name := "Two", responsable := some "Ana",
          status := some "At Risk", pmoId := some "PMO-2" },
        { gid := "pC", name := "Fin", responsable := some "Ana",
          status := some "Completed", pmoId := some "PMO-1" },
        { gid := "pDone", name := "Rep", responsable := some "Ana",
          status := some "On Track", pmoId := some "PMO-3" }].filter
        (pulseEligible ["pDone"])) ∧
    List.Sorted pmoLe (buildQueue ["pDone"]
      [{ gid := "p5", name := "Five", responsable := some "Ana",
         status := some "On Track", pmoId := some "PMO-5" },
       { gid := "p2", name := "Two", responsable := some "Ana",
         status := some "At Risk", pmoId := some "PMO-2" },
       { gid := "pC", name := "Fin", responsable := some "Ana",
         status := some "Completed", pmoId := some "PMO-1" },
       { gid := "pDone", name := "Rep", responsable := some "Ana",
         status := some "On Track", pmoId := some "PMO-3" }]) ∧
    (∀ p ∈ [{ gid := "p5", name := "Five", responsable := some "Ana",
              status := some "On Track", pmoId := some "PMO-5" },
            { gid := "p2", name := "Two", responsable := some "Ana",
              status := some "At Risk", pmoId := some "PMO-2" },
            { gid := "pC", name := "Fin", responsable := some "Ana",
              status := some "Completed", pmoId := some "PMO-1" },
            { gid := "pDone", name := "Rep", responsable := some "Ana",
              status := some "On Track", pmoId := some "PMO-3" }],
      statusLower p = "completed" →
      p ∉ buildQueue ["pDone"]
        [{ gid := "p5", name := "Five", responsable := some "Ana",
           status := some "On Track", pmoId := some "PMO-5" },
         { gid := "p2", name := "Two", responsable := some "Ana",
           status := some "At Risk", pmoId := some "PMO-2" },
         { gid := "pC", name := "Fin", responsable := some "Ana",
           status := some "Completed", pmoId := some "PMO-1" },
         { gid := "pDone", name := "Rep", responsable := some "Ana",
           status := some "On Track", pmoId := some "PMO-3" }]) ∧
    (∀ p ∈ [{ gid := "p5", name := "Five", responsable := some "Ana",
              status := some "On Track", pmoId := some "PMO-5" },
            { gid := "p2", name := "Two", responsable := some "Ana",
              status := some "At Risk", pmoId := some "PMO-2" },
            { gid := "pC", name := "Fin", responsable := some "Ana",
              status := some "Completed", pmoId := some "PMO-1" },
            { gid := "pDone", name := "Rep", responsable := some "Ana",
              status := some "On Track", pmoId := some "PMO-3" }],
      p.gid ∈ ["pDone"] →
      p ∉ buildQueue ["pDone"]
        [{ gid := "p5", name := "Five", responsable := some "Ana",
           status := some "On Track", pmoId := some "PMO-5" },
         { gid := "p2", name := "Two", responsable := some "Ana",
           status := some "At Risk", pmoId := some "PMO-2" },
         { gid := "pC", name := "Fin", responsable := some "Ana",
           status := some "Completed", pmoId := some "PMO-1" },
         { gid := "pDone", name := "Rep", responsable := some "Ana",
           status := some "On Track", pmoId := some "PMO-3" }]) :=
  pulse_queue_spec 77 9 c9User "Ana Lopez" none ["pDone"]
    [{ gid := "p5", name := "Five", responsable := some "Ana",
       status := some "On Track", pmoId := some "PMO-5" },
     { gid := "p2", name := "Two", responsable := some "Ana",
       status := some "At Risk", pmoId := some "PMO-2" },
     { gid := "pC", name := "Fin", responsable := some "Ana",
       status := some "Completed", pmoId := some "PMO-1" },
     { gid := "pDone", name := "Rep", responsable := some "Ana",
       status := some "On Track", pmoId := some "PMO-3" }]
    (by decide) (by decide) (by decide) (by decide)

/-- A `pmo-bot-conversations` table item as written by
`dynamo.setConversationState`: partition key, spread payload, `updatedAt`,
and the TTL attribute `expiresAt` (whole seconds). -/
structure StoredConvItem (α : Type) where
  pk : String
  payload : α
  updatedAt : Nat
  expiresAt : Nat
deriving DecidableEq, Repr

/-- `setConversationState` (`src/services/dynamo.js` lines 227-245): a full
`Put` whose `expiresAt` is `Math.floor(Date.now() / 1000) + 3600`, computed
from the write time `nowMs` (milliseconds), on every call. -/
def setConversationStateItem {α : Type} (nowMs : Nat) (slackUserId : String)
    (state : α) : StoredConvItem α :=
  { pk := "CONV#" ++ slackUserId,
    payload := state,
    updatedAt := nowMs,
    expiresAt := nowMs / 1000 + 3600 }

/-- `clearConversationState` (`src/services/dynamo.js` lines 247-254): the
logical clear overwrites the record via `setConversationState` with the
terminal marker `{ cleared: true }`. -/
def clearConversationStateItem (nowMs : Nat) (slackUserId : String) :
    StoredConvItem Bool :=
  setConversationStateItem nowMs slackUserId true

/-- C10. Every conversation-state write — any payload, including the terminal
clear marker — stores `expiresAt` equal to exactly one hour (3600 s) after
the write's time; the expiry depends only on the write time, never on the
payload, so each later write at `t2 ≥ t1` moves the expiry forward (or keeps
it, within the same second): the retention window slides with the last write
rather than being fixed at creation. -/
theorem conversationState_ttl_spec {α : Type} (nowMs : Nat) (u : String) (st : α) :
    (setConversationStateItem nowMs u st).expiresAt = nowMs / 1000 + 3600 ∧
    (clearConversationStateItem nowMs u).expiresAt = nowMs / 1000 + 3600 ∧
    (∀ (st2 : α) (t1 t2 : Nat), t1 ≤ t2 →
      (setConversationStateItem t1 u st).expiresAt ≤
        (setConversationStateItem t2 u st2).expiresAt) := by
  refine ⟨rfl, rfl, ?_⟩
  intro st2 t1 t2 h12
  show t1 / 1000 + 3600 ≤ t2 / 1000 + 3600
  have hd : t1 / 1000 ≤ t2 / 1000 := Nat.div_le_div_right h12
  omega

/-- C10 witness: a concrete state write at t = 5000000 ms and the clear one
minute later, both through the theorem. -/
theorem conversationState_ttl_spec_witness :
    (setConversationStateItem 5000000 "U1" c8s2).expiresAt = 5000000 / 1000 + 3600 ∧
    (clearConversationStateItem 5000000 "U1").expiresAt = 5000000 / 1000 + 3600 ∧
    (∀ (st2 : ConvState) (t1 t2 : Nat), t1 ≤ t2 →
      (setConversationStateItem t1 "U1" c8s2).expiresAt ≤
        (setConversationStateItem t2 "U1" st2).expiresAt) :=
  conversationState_ttl_spec 5000000 "U1" c8s2

end PulseBot